import Mathlib

/-!
# Verification of the NES emulator CPU core (src/cpu.rs)

Shallow embedding of the CPU module: registers and the status byte are
natural numbers kept below 256, the program counter below 65536, and the
memory is modelled as a function from addresses to cell contents together
with the bound `MEMSIZE`, the length of the Rust array `[u8; 0xFFFF]`.
Array indexing in Rust is bounds-checked and aborts out of range, so every
memory access returns an `Option`; `none` models the abort.  Fuel makes the
`run` loop a total function: `none` is returned both when the fuel runs out
and when the loop aborts, and theorems about aborting quantify over all
fuel values so the two cannot be confused.
-/

namespace Nes

/-- Length of the memory array: the source declares `memory : [u8; 0xFFFF]`,
i.e. 0xFFFF = 65535 cells (indices 0x0000 .. 0xFFFE). -/
def MEMSIZE : Nat := 0xFFFF

/-- The CPU state (struct `CPU` in src/cpu.rs). -/
structure CPU where
  register_a : Nat
  register_x : Nat
  register_y : Nat
  status : Nat
  program_counter : Nat
  memory : Nat → Nat

/-- The addressing modes (enum `AddressingMode`). -/
inductive AddressingMode where
  | Immediate
  | ZeroPage
  | ZeroPage_X
  | ZeroPage_Y
  | Absolute
  | Absolute_X
  | Absolute_Y
  | Indirect_X
  | Indirect_Y
  | NoneAddressing

/-- `CPU::new()`: all registers and memory cells zero. -/
def CPU.new : CPU :=
  { register_a := 0, register_x := 0, register_y := 0, status := 0,
    program_counter := 0, memory := fun _ => 0 }

/-- `CPU::mem_read`: `self.memory[address as usize]`.  Indexing the
0xFFFF-cell array is bounds-checked; out of range aborts (`none`). -/
def CPU.mem_read (c : CPU) (address : Nat) : Option Nat :=
  if address < MEMSIZE then some (c.memory address) else none

/-- `CPU::mem_write`: `self.memory[address as usize] = data`. -/
def CPU.mem_write (c : CPU) (address data : Nat) : Option CPU :=
  if address < MEMSIZE then
    some { c with memory := fun a => if a = address then data else c.memory a }
  else none

/-- `CPU::mem_read_u16`: little-endian pair read (lo at `pos`, hi at `pos + 1`). -/
def CPU.mem_read_u16 (c : CPU) (pos : Nat) : Option Nat := do
  let lo ← c.mem_read pos
  let hi ← c.mem_read (pos + 1)
  return (hi <<< 8) ||| lo

/-- `CPU::mem_write_u16`: little-endian pair write. -/
def CPU.mem_write_u16 (c : CPU) (pos data : Nat) : Option CPU := do
  let hi := data >>> 8
  let lo := data &&& 0xff
  let c ← c.mem_write pos lo
  c.mem_write (pos + 1) hi

/-- `CPU::load`: `self.memory[0x8000 .. 0x8000 + program.len()].copy_from_slice(...)`
then `self.mem_write_u16(0xFFFC, 0x8000)`.  The slice indexing demands
`0x8000 + program.len() <= self.memory.len() = MEMSIZE`; otherwise the
range check aborts before any cell is written. -/
def CPU.load (c : CPU) (program : List Nat) : Option CPU :=
  if 0x8000 + program.length ≤ MEMSIZE then
    let c1 : CPU :=
      { c with memory := fun a =>
          if 0x8000 ≤ a ∧ a < 0x8000 + program.length
          then program.getD (a - 0x8000) 0 else c.memory a }
    c1.mem_write_u16 0xFFFC 0x8000
  else none

/-- `CPU::reset`: zero A, X and status, then fetch the program counter from
the reset vector at 0xFFFC/0xFFFD. -/
def CPU.reset (c : CPU) : Option CPU := do
  let pc ← CPU.mem_read_u16
    { c with register_a := 0, register_x := 0, status := 0 } 0xFFFC
  return { c with register_a := 0, register_x := 0, status := 0,
                  program_counter := pc }

/-- `CPU::update_zero_and_negative`: Zero flag is bit 1, Negative flag is
bit 7 of the status byte. -/
def CPU.update_zero_and_negative (c : CPU) (result : Nat) : CPU :=
  let s1 := if result = 0 then c.status ||| 0x02
            else c.status &&& 0xFD
  let s2 := if result &&& 0x80 ≠ 0 then s1 ||| 0x80
            else s1 &&& 0x7F
  { c with status := s2 }

/-- `CPU::lda`: store the value in A, update Zero/Negative from it. -/
def CPU.lda (c : CPU) (value : Nat) : CPU :=
  CPU.update_zero_and_negative { c with register_a := value } value

/-- `CPU::tax`: copy A into X, update Zero/Negative from X. -/
def CPU.tax (c : CPU) : CPU :=
  let c := { c with register_x := c.register_a }
  c.update_zero_and_negative c.register_x

/-- `CPU::inx`: increment X with 8-bit wrapping, update Zero/Negative. -/
def CPU.inx (c : CPU) : CPU :=
  let c := { c with register_x := (c.register_x + 1) % 256 }
  c.update_zero_and_negative c.register_x

/-- `CPU::get_operand_address`: per-mode effective-address computation.
`wrapping_add` on `u8` is addition mod 256, on `u16` mod 65536;
`NoneAddressing` aborts (`none`). -/
def CPU.get_operand_address (c : CPU) (mode : AddressingMode) : Option Nat :=
  match mode with
  | AddressingMode.Immediate => some c.program_counter
  | AddressingMode.ZeroPage => c.mem_read c.program_counter
  | AddressingMode.Absolute => c.mem_read_u16 c.program_counter
  | AddressingMode.ZeroPage_X => do
      let pos ← c.mem_read c.program_counter
      return (pos + c.register_x) % 256
  | AddressingMode.ZeroPage_Y => do
      let pos ← c.mem_read c.program_counter
      return (pos + c.register_y) % 256
  | AddressingMode.Absolute_X => do
      let pos ← c.mem_read_u16 c.program_counter
      return (pos + c.register_x) % 65536
  | AddressingMode.Absolute_Y => do
      let pos ← c.mem_read_u16 c.program_counter
      return (pos + c.register_y) % 65536
  | AddressingMode.Indirect_X => do
      let zero_page ← c.mem_read c.program_counter
      let address := (zero_page + c.register_x) % 256
      let lo ← c.mem_read address
      let hi ← c.mem_read ((address + 1) % 65536)
      return (hi <<< 8) ||| lo
  | AddressingMode.Indirect_Y => do
      let base ← c.mem_read c.program_counter
      let lo ← c.mem_read base
      let hi ← c.mem_read ((base + 1) % 256)
      let deref_base := (hi <<< 8) ||| lo
      return (deref_base + c.register_y) % 65536
  | AddressingMode.NoneAddressing => none

/-- `CPU::run`: fetch-decode-execute until BRK (0x00).  The program counter
increments are `u16` additions (mod 65536).  An opcode outside the four
registered ones hits the `todo!()` arm, i.e. aborts (`none`). -/
def CPU.run : Nat → CPU → Option CPU
  | 0, _ => none
  | fuel + 1, c => do
    let opscode ← c.mem_read c.program_counter
    let c := { c with program_counter := (c.program_counter + 1) % 65536 }
    match opscode with
    | 0xA9 => do
        let param ← c.mem_read c.program_counter
        let c := { c with program_counter := (c.program_counter + 1) % 65536 }
        CPU.run fuel (c.lda param)
    | 0xAA => CPU.run fuel c.tax
    | 0xE8 => CPU.run fuel c.inx
    | 0x00 => some c
    | _ => none

/-- `CPU::load_and_run`: load, reset, run. -/
def CPU.load_and_run (c : CPU) (program : List Nat) (fuel : Nat) : Option CPU := do
  let c ← c.load program
  let c ← c.reset
  c.run fuel

/-- Concrete machine for exercising the flag-update routine: an arbitrary
status byte with a mix of set and clear bits. -/
def cW3 : CPU := { CPU.new with status := 0x55 }

/-- Concrete machine whose program starts with `LDA #$85`. -/
def cW6 : CPU :=
  { CPU.new with memory := fun a => if a = 0 then 0xA9 else if a = 1 then 0x85 else 0 }

/-- Concrete machine whose first fetched byte is the unregistered opcode 0xFF. -/
def cW9 : CPU := { CPU.new with memory := fun _ => 0xFF }

/-- Concrete machine exercising both indirect-mode zero-page edges: the
operand byte at the program counter is 0xFF. -/
def cW10 : CPU :=
  { CPU.new with
      program_counter := 0x8000,
      register_y := 1,
      memory := fun a =>
        if a = 0x8000 then 0xFF else if a = 0xFF then 2
        else if a = 0x100 then 3 else if a = 0 then 4 else 0 }

/-! ## Helper lemmas -/

set_option maxRecDepth 10000 in
/-- Bit-level behaviour of the four possible mask combinations produced by
`update_zero_and_negative` on a status byte. -/
theorem status_mask_bits : ∀ s : Nat, s < 256 →
    (((s ||| 2) &&& 0x7F).testBit 1 = true)
  ∧ (((s &&& 0xFD) &&& 0x7F).testBit 1 = false)
  ∧ (((s ||| 2) ||| 0x80).testBit 1 = true)
  ∧ (((s &&& 0xFD) ||| 0x80).testBit 1 = false)
  ∧ (((s ||| 2) &&& 0x7F).testBit 7 = false)
  ∧ (((s &&& 0xFD) &&& 0x7F).testBit 7 = false)
  ∧ (((s ||| 2) ||| 0x80).testBit 7 = true)
  ∧ (((s &&& 0xFD) ||| 0x80).testBit 7 = true)
  ∧ ((s ||| 2) &&& 0x7F < 256)
  ∧ (((s &&& 0xFD) &&& 0x7F) < 256)
  ∧ (((s ||| 2) ||| 0x80) < 256)
  ∧ (((s &&& 0xFD) ||| 0x80) < 256)
  ∧ ∀ i < 8, i = 1 ∨ i = 7 ∨
      (((s ||| 2) &&& 0x7F).testBit i = s.testBit i
       ∧ (((s &&& 0xFD) &&& 0x7F).testBit i = s.testBit i)
       ∧ (((s ||| 2) ||| 0x80).testBit i = s.testBit i)
       ∧ (((s &&& 0xFD) ||| 0x80).testBit i = s.testBit i)) := by
  decide

/-- Flag-update contract of `update_zero_and_negative`: Zero (bit 1) is set
iff the result is 0, Negative (bit 7) mirrors bit 7 of the result, every
other bit of the status byte is preserved. -/
theorem uzn_flags (c : CPU) (v : Nat) (hs : c.status < 256) :
    ((c.update_zero_and_negative v).status.testBit 1 = true ↔ v = 0)
  ∧ ((c.update_zero_and_negative v).status.testBit 7 = true ↔ v &&& 0x80 ≠ 0)
  ∧ ∀ i, i ≠ 1 → i ≠ 7 →
      (c.update_zero_and_negative v).status.testBit i = c.status.testBit i := by
  obtain ⟨h1a, h1b, h1c, h1d, h7a, h7b, h7c, h7d, hb1, hb2, hb3, hb4, hball⟩ :=
    status_mask_bits c.status hs
  have key : ∀ t : Nat, t < 256 →
      (∀ i, i < 8 → i = 1 ∨ i = 7 ∨ t.testBit i = c.status.testBit i) →
      ∀ i, i ≠ 1 → i ≠ 7 → t.testBit i = c.status.testBit i := by
    intro t ht hb i hi1 hi7
    by_cases hlt : i < 8
    · rcases hb i hlt with h | h | h
      · exact absurd h hi1
      · exact absurd h hi7
      · exact h
    · have h2 : (256 : Nat) ≤ 2 ^ i := by
        have h8 : (2 : Nat) ^ 8 ≤ 2 ^ i :=
          Nat.pow_le_pow_right (by norm_num) (Nat.le_of_not_lt hlt)
        simpa using h8
      rw [Nat.testBit_eq_false_of_lt (lt_of_lt_of_le ht h2),
          Nat.testBit_eq_false_of_lt (lt_of_lt_of_le hs h2)]
  by_cases h0 : v = 0 <;> by_cases h7 : v &&& 0x80 = 0
  · have he : (c.update_zero_and_negative v).status = (c.status ||| 2) &&& 0x7F := by
      simp [CPU.update_zero_and_negative, h0]
    refine ⟨by rw [he]; simp [h1a, h0], by rw [he]; simp [h7a, h0], ?_⟩
    intro i hi1 hi7
    rw [he]
    exact key _ hb1 (fun i hi => by
      rcases hball i hi with h | h | h
      exacts [Or.inl h, Or.inr (Or.inl h), Or.inr (Or.inr h.1)]) i hi1 hi7
  · exact absurd (by simp [h0]) h7
  · have he : (c.update_zero_and_negative v).status = (c.status &&& 0xFD) &&& 0x7F := by
      simp [CPU.update_zero_and_negative, h0, h7]
    refine ⟨by rw [he]; simp [h1b, h0], by rw [he]; simp [h7b, h7], ?_⟩
    intro i hi1 hi7
    rw [he]
    exact key _ hb2 (fun i hi => by
      rcases hball i hi with h | h | h
      exacts [Or.inl h, Or.inr (Or.inl h), Or.inr (Or.inr h.2.1)]) i hi1 hi7
  · have he : (c.update_zero_and_negative v).status = (c.status &&& 0xFD) ||| 0x80 := by
      simp [CPU.update_zero_and_negative, h0, h7]
    refine ⟨by rw [he]; simp [h1d, h0], by rw [he]; simp [h7d, h7], ?_⟩
    intro i hi1 hi7
    rw [he]
    exact key _ hb4 (fun i hi => by
      rcases hball i hi with h | h | h
      exacts [Or.inl h, Or.inr (Or.inl h), Or.inr (Or.inr h.2.2.2)]) i hi1 hi7

/-- `reset` always succeeds and produces exactly: A = X = status = 0, the
program counter loaded little-endian from 0xFFFC/0xFFFD, Y and memory
untouched. -/
theorem reset_eq (c : CPU) :
    c.reset = some
      { register_a := 0, register_x := 0, register_y := c.register_y,
        status := 0,
        program_counter := (c.memory 0xFFFD) <<< 8 ||| c.memory 0xFFFC,
        memory := c.memory } := by
  simp [CPU.reset, CPU.mem_read_u16, CPU.mem_read, MEMSIZE]

/-! ## Claim theorems -/

/-- C1: the claim says `mem_read` never fails on any u16 address, but the
source declares the memory array with 0xFFFF = 65535 cells, so reading
address 0xFFFF indexes out of bounds and aborts: on every machine state the
read of 0xFFFF fails. -/
theorem C1_mem_read_top_aborts (c : CPU) : c.mem_read 0xFFFF = none := by
  simp [CPU.mem_read, MEMSIZE]

/-- C2: the claim says `load` succeeds whenever 0x8000 + len ≤ 0x10000, but
for the 0x8000-byte program (0x8000 + 0x8000 = 0x10000) the copy range
exceeds the 65535-cell array, so `load` aborts. -/
theorem C2_load_32k_aborts : CPU.new.load (List.replicate 0x8000 0) = none := by
  unfold CPU.load
  rw [List.length_replicate]
  rfl

/-- C3: `update_zero_and_negative` sets status bit 1 (Zero) iff the result
is 0, sets bit 7 (Negative) iff the result's bit 7 is set, and leaves every
other status bit unchanged. -/
theorem C3_update_flags (c : CPU) (v : Nat) (hs : c.status < 256) :
    ((c.update_zero_and_negative v).status.testBit 1 = true ↔ v = 0)
  ∧ ((c.update_zero_and_negative v).status.testBit 7 = true ↔ v &&& 0x80 ≠ 0)
  ∧ ∀ i, i ≠ 1 → i ≠ 7 →
      (c.update_zero_and_negative v).status.testBit i = c.status.testBit i :=
  uzn_flags c v hs

/-- C3 witness: concrete instance at status 0x55 and result 0x80. -/
theorem C3_witness :
    ((cW3.update_zero_and_negative 0x80).status.testBit 1 = true ↔ (0x80 : Nat) = 0)
  ∧ (cW3.update_zero_and_negative 0x80).status.testBit 3 = cW3.status.testBit 3 :=
  ⟨(C3_update_flags cW3 0x80 (by decide)).1,
   (C3_update_flags cW3 0x80 (by decide)).2.2 3 (by decide) (by decide)⟩

/-- C4: `reset` zeroes A, X and status, loads the program counter
little-endian from 0xFFFC/0xFFFD, and leaves Y and all of memory unchanged. -/
theorem C4_reset (c : CPU) :
    c.reset = some
      { register_a := 0, register_x := 0, register_y := c.register_y,
        status := 0,
        program_counter := (c.memory 0xFFFD) <<< 8 ||| c.memory 0xFFFC,
        memory := c.memory } :=
  reset_eq c

/-- C5: ZeroPage_X resolution is (operand byte + X) mod 256, always within
page zero (at most 0xFF). -/
theorem C5_zeropage_x (c : CPU) (hpc : c.program_counter < MEMSIZE) :
    c.get_operand_address AddressingMode.ZeroPage_X
      = some ((c.memory c.program_counter + c.register_x) % 256)
  ∧ ∀ r, c.get_operand_address AddressingMode.ZeroPage_X = some r → r ≤ 0xFF := by
  have h : c.get_operand_address AddressingMode.ZeroPage_X
      = some ((c.memory c.program_counter + c.register_x) % 256) := by
    simp [CPU.get_operand_address, CPU.mem_read, hpc]
  refine ⟨h, ?_⟩
  intro r hr
  rw [h] at hr
  injection hr with h2
  omega

/-- C5 witness: on the fresh machine the mode resolves to 0. -/
theorem C5_witness :
    CPU.new.get_operand_address AddressingMode.ZeroPage_X = some 0 :=
  ((C5_zeropage_x CPU.new (by decide)).1).trans (by decide)

/-- C6: dispatching opcode 0xA9 consumes the operand byte and runs `lda` on
it, and `lda v` leaves the accumulator equal to v with Zero set iff v = 0
and Negative set iff bit 7 of v is set. -/
theorem C6_lda_immediate (c : CPU) (v fuel : Nat)
    (hpc : c.program_counter + 1 < MEMSIZE)
    (hs : c.status < 256)
    (hop : c.memory c.program_counter = 0xA9)
    (hv : c.memory (c.program_counter + 1) = v) :
    CPU.run (fuel + 1) c
      = CPU.run fuel
          (CPU.lda { c with program_counter := (c.program_counter + 2) % 65536 } v)
  ∧ (c.lda v).register_a = v
  ∧ ((c.lda v).status.testBit 1 = true ↔ v = 0)
  ∧ ((c.lda v).status.testBit 7 = true ↔ v &&& 0x80 ≠ 0) := by
  have hpc0 : c.program_counter < MEMSIZE := by omega
  have hm1 : (c.program_counter + 1) % 65536 = c.program_counter + 1 := by
    apply Nat.mod_eq_of_lt
    have : MEMSIZE = 65535 := rfl
    omega
  have hm2 : c.program_counter + 1 + 1 = c.program_counter + 2 := by omega
  refine ⟨?_, rfl, ?_, ?_⟩
  · simp [CPU.run, CPU.mem_read, hpc0, hop, hm1, hpc, hv, hm2]
  · exact (uzn_flags { c with register_a := v } v hs).1
  · exact (uzn_flags { c with register_a := v } v hs).2.1

/-- C6 witness: concrete machine running `LDA #$85`. -/
theorem C6_witness :
    CPU.run (0 + 1) cW6
      = CPU.run 0
          (CPU.lda { cW6 with program_counter := (cW6.program_counter + 2) % 65536 } 0x85)
  ∧ (cW6.lda 0x85).register_a = 0x85
  ∧ ((cW6.lda 0x85).status.testBit 1 = true ↔ (0x85 : Nat) = 0)
  ∧ ((cW6.lda 0x85).status.testBit 7 = true ↔ (0x85 : Nat) &&& 0x80 ≠ 0) :=
  C6_lda_immediate cW6 0x85 0 (by decide) (by decide) rfl rfl

/-- C7: Scenario D, the program [0xA9, 0x7F, 0xAA, 0xE8, 0x00] terminates
with X = 0x80 and status exactly 0x80. -/
theorem C7_scenario_d :
    (CPU.new.load_and_run [0xA9, 0x7F, 0xAA, 0xE8, 0x00] 10).map
      (fun c => (c.register_x, c.status)) = some (0x80, 0x80) := by
  decide

/-- C8: `reset` is idempotent: resetting the result of a reset yields the
same machine state as the single reset. -/
theorem C8_reset_idempotent (c : CPU) : c.reset.bind CPU.reset = c.reset := by
  simp [reset_eq]

/-- C9: fetching any opcode outside the registered set {0xA9, 0xAA, 0xE8,
0x00} makes `run` abort immediately, for every remaining fuel amount — the
unknown opcode is never skipped or treated as a no-op. -/
theorem C9_unknown_opcode (c : CPU) (fuel : Nat)
    (hpc : c.program_counter < MEMSIZE)
    (h1 : c.memory c.program_counter ≠ 0xA9)
    (h2 : c.memory c.program_counter ≠ 0xAA)
    (h3 : c.memory c.program_counter ≠ 0xE8)
    (h4 : c.memory c.program_counter ≠ 0x00) :
    CPU.run (fuel + 1) c = none := by
  simp only [CPU.run, CPU.mem_read, if_pos hpc, Option.some_bind]
  split
  all_goals simp_all

/-- C9 witness: the machine whose first byte is 0xFF aborts at once. -/
theorem C9_witness : CPU.run (0 + 1) cW9 = none :=
  C9_unknown_opcode cW9 0 (by decide) (by decide) (by decide) (by decide) (by decide)

/-- C10: the two indirect modes treat the zero-page edge differently: with
pointer byte 0xFF, Indirect_Y reads its high byte from 0x0000 (8-bit wrap of
the pointer), while Indirect_X with effective pointer 0xFF reads its high
byte from 0x0100 (16-bit increment, no zero-page wrap). -/
theorem C10_indirect_edges (c : CPU) (hpc : c.program_counter < MEMSIZE) :
    (c.memory c.program_counter = 0xFF →
      c.get_operand_address AddressingMode.Indirect_Y
        = some (((c.memory 0x00 <<< 8 ||| c.memory 0xFF) + c.register_y) % 65536))
  ∧ ((c.memory c.program_counter + c.register_x) % 256 = 0xFF →
      c.get_operand_address AddressingMode.Indirect_X
        = some (c.memory 0x100 <<< 8 ||| c.memory 0xFF)) := by
  have hpc2 : c.program_counter < 65535 := by simpa [MEMSIZE] using hpc
  constructor
  · intro hb
    simp [CPU.get_operand_address, CPU.mem_read, MEMSIZE, hpc2, hb]
  · intro hb
    simp [CPU.get_operand_address, CPU.mem_read, MEMSIZE, hpc2, hb]

/-- C10 witness: concrete machine with operand byte 0xFF at the program
counter, showing the two different high-byte sources. -/
theorem C10_witness :
    cW10.get_operand_address AddressingMode.Indirect_Y = some 0x0403
  ∧ cW10.get_operand_address AddressingMode.Indirect_X = some 0x0302 := by
  have h := C10_indirect_edges cW10 (by decide)
  exact ⟨(h.1 (by decide)).trans (by decide), (h.2 (by decide)).trans (by decide)⟩

end Nes
